import Mathlib

/-!
Verification of the pi-server session relay (packages/server) against its
design document.  The relay is embedded shallowly: JSON values are a small
inductive, the `UIBridge` and `WsServer` classes become pure state-passing
functions, and the asynchronous parts (socket frames, backend stdout lines,
timers) become an explicit event alphabet driving a step function.
-/

namespace PiServer

mutual
/-- A JSON value, as read from the backend's stdout or a client frame.
Numbers are modelled as integers (the protocol only uses integral numbers).
Array elements and object fields are spelled as their own list inductives
(`JArr`, `JObj`) so that decidable equality can be derived. -/
inductive Json : Type where
  | null : Json
  | bool (b : Bool) : Json
  | num (n : Int) : Json
  | str (s : String) : Json
  | arr (xs : JArr) : Json
  | obj (fs : JObj) : Json
deriving DecidableEq, Repr

/-- The element list of a JSON array. -/
inductive JArr : Type where
  | nil : JArr
  | cons (hd : Json) (tl : JArr) : JArr
deriving DecidableEq, Repr

/-- The field list of a JSON object. -/
inductive JObj : Type where
  | nil : JObj
  | cons (key : String) (val : Json) (tl : JObj) : JObj
deriving DecidableEq, Repr
end

/-- A JavaScript value that may be `undefined` (`none`). -/
abbrev JsVal := Option Json

/-- Property lookup in an object's field list (first match wins). -/
def lookupField : JObj → String → JsVal
  | .nil, _ => none
  | .cons k v fs, key => if k = key then some v else lookupField fs key

/-- `m.k` — property access; `undefined` on non-objects and missing keys. -/
def getField : Json → String → JsVal
  | .obj fs, k => lookupField fs k
  | _, _ => none

/-- The nullish-coalescing operator `x ?? d`. -/
def nullish (x : JsVal) (d : Json) : Json :=
  match x with
  | none => d
  | some .null => d
  | some v => v

/-- `typeof m.k === "string"` paired with the string value. -/
def getStrField (m : Json) (k : String) : Option String :=
  match getField m k with
  | some (.str s) => some s
  | _ => none

section AssocHelpers

variable {α β : Type} [DecidableEq α]

/-- `Map.get` on an association list. -/
def alookup : List (α × β) → α → Option β
  | [], _ => none
  | (k, v) :: l, key => if k = key then some v else alookup l key

/-- `Map.set`: replace in place when the key exists, append otherwise. -/
def aset : List (α × β) → α → β → List (α × β)
  | [], key, v => [(key, v)]
  | (k, w) :: l, key, v => if k = key then (key, v) :: l else (k, w) :: aset l key v

/-- `Map.delete` (a key occurs at most once in any state built via `aset`,
so removing every occurrence agrees with JS `Map.delete`). -/
def adel : List (α × β) → α → List (α × β)
  | [], _ => []
  | (k, w) :: l, key => if k = key then adel l key else (k, w) :: adel l key

theorem alookup_adel_self (l : List (α × β)) (key : α) :
    alookup (adel l key) key = none := by
  induction l with
  | nil => rfl
  | cons p l ih =>
    obtain ⟨k, w⟩ := p
    by_cases h : k = key
    · simpa [adel, h] using ih
    · simpa [adel, h, alookup] using ih

theorem alookup_adel_ne (l : List (α × β)) (key k0 : α) (h : k0 ≠ key) :
    alookup (adel l key) k0 = alookup l k0 := by
  induction l with
  | nil => rfl
  | cons p l ih =>
    obtain ⟨k, w⟩ := p
    by_cases hk : k = key
    · have hkey0 : ¬ key = k0 := fun hh => h hh.symm
      simpa [adel, hk, alookup, hkey0] using ih
    · by_cases hk0 : k = k0
      · simp [adel, hk, alookup, hk0, h]
      · simpa [adel, hk, alookup, hk0] using ih

theorem alookup_aset_self (l : List (α × β)) (key : α) (v : β) :
    alookup (aset l key v) key = some v := by
  induction l with
  | nil => simp [aset, alookup]
  | cons p l ih =>
    obtain ⟨k, w⟩ := p
    by_cases h : k = key
    · simp [aset, h, alookup]
    · simpa [aset, h, alookup] using ih

theorem alookup_aset_ne (l : List (α × β)) (key k0 : α) (v : β) (h : k0 ≠ key) :
    alookup (aset l key v) k0 = alookup l k0 := by
  have hkey0 : ¬ key = k0 := fun hh => h hh.symm
  induction l with
  | nil => simp [aset, alookup, hkey0]
  | cons p l ih =>
    obtain ⟨k, w⟩ := p
    by_cases hk : k = key
    · simp [aset, hk, alookup, hkey0]
    · by_cases hk0 : k = k0
      · simp [aset, hk, alookup, hk0, h]
      · simpa [aset, hk, alookup, hk0] using ih

end AssocHelpers

/-! ## Wire protocol (packages/protocol/src/version.ts, errors.ts) -/

/-- version.ts: the server's protocol version constant. -/
def PROTOCOL_VERSION : Int := 1

/-- types.ts `ServerError`: an error message sent to a client. -/
structure ServerError where
  code : String
  message : String
  serverVersion : Option Int := none
deriving DecidableEq, Repr

/-- errors.ts `createError`: build a protocol error message. -/
def createError (code message : String) (serverVersion : Option Int) : ServerError :=
  { code := code, message := message, serverVersion := serverVersion }

/-- errors.ts `createIncompatibleProtocolError`. -/
def createIncompatibleProtocolError (clientVersion serverVersion : Int) : ServerError :=
  createError "INCOMPATIBLE_PROTOCOL"
    ("Server requires protocol v" ++ toString serverVersion ++ ", client sent v"
      ++ toString clientVersion)
    (some serverVersion)

/-! ## Extension UI bridge (packages/server/src/ui-bridge.ts) -/

/-- ui-bridge.ts `FIRE_AND_FORGET_METHODS`. -/
def FIRE_AND_FORGET_METHODS : List String :=
  ["notify", "setStatus", "setWidget", "setTitle", "set_editor_text"]

/-- `isExtensionUIRequest`: does a pi stdout message have
`type === "extension_ui_request"`? -/
def isExtensionUIRequest (m : Json) : Bool :=
  decide (getField m "type" = some (.str "extension_ui_request"))

/-- `isFireAndForget`: `FIRE_AND_FORGET_METHODS.has(message.method as string)` —
a `Set.has` on a non-string value is `false`. -/
def isFireAndForget (m : Json) : Bool :=
  match getField m "method" with
  | some (.str s) => FIRE_AND_FORGET_METHODS.contains s
  | _ => false

/-- The `extension_ui_response` object sent back to pi's stdin.  `id` is the
raw value echoed from the request (ws-server.ts builds the client-originated
variant; `getDefaultResponse` builds the defaults). -/
structure UIResponse where
  id : JsVal
  value : Option String := none
  confirmed : Option Bool := none
  cancelled : Option Bool := none
deriving DecidableEq, Repr

/-- ui-bridge.ts `getDefaultResponse`: the default response for a timed-out or
cancelled dialog.  In the source `method` is typed `string` but callers pass
the raw `message.method as string` cast, so it is modelled as a raw value;
any non-matching value falls into the default branch of the switch. -/
def getDefaultResponse (id : JsVal) (method : JsVal) : UIResponse :=
  match method with
  | some (.str "select") => { id := id, cancelled := some true }
  | some (.str "confirm") => { id := id, confirmed := some false }
  | some (.str "input") => { id := id, cancelled := some true }
  | some (.str "editor") => { id := id, cancelled := some true }
  | _ => { id := id, cancelled := some true }

/-- ui-bridge.ts: the `UIBridge`'s mutable state.  `pending` maps a request id
(the raw `message.id` value) to the registered method (the raw
`message.method` value).  An entry is present exactly while its timeout timer
is armed and its promise unresolved: every removal in the source is paired
with `clearTimeout`, and a fired or cleared timer's entry is deleted. -/
structure UIBridge where
  timeoutMs : Nat
  pending : List (JsVal × JsVal)
deriving DecidableEq, Repr

/-- A promise resolution performed by the bridge: the pending id together
with the response its future resolves to.  The relay's continuation sends
each resolution to pi's stdin. -/
abbrev Resolution := JsVal × UIResponse

/-- ui-bridge.ts `registerRequest`: create the pending entry and arm its
timer.  (The timer's later firing is the separate `fireTimeout`.) -/
def UIBridge.registerRequest (b : UIBridge) (id method : JsVal) : UIBridge :=
  { b with pending := aset b.pending id method }

/-- ui-bridge.ts `handleResponse`: resolve a pending request with the client's
response; a no-op returning `false` when the id has no pending entry. -/
def UIBridge.handleResponse (b : UIBridge) (id : JsVal) (response : UIResponse) :
    UIBridge × Bool × List Resolution :=
  match alookup b.pending id with
  | none => (b, false, [])
  | some _ => ({ b with pending := adel b.pending id }, true, [(id, response)])

/-- The timeout callback armed by `registerRequest`: delete the entry and
resolve with the method's default.  It can only run while the timer is armed,
i.e. while the entry is still pending — `clearTimeout` in `handleResponse`
and `cancelAll` prevents a later firing. -/
def UIBridge.fireTimeout (b : UIBridge) (id : JsVal) : UIBridge × List Resolution :=
  match alookup b.pending id with
  | none => (b, [])
  | some method =>
    ({ b with pending := adel b.pending id }, [(id, getDefaultResponse id method)])

/-- ui-bridge.ts `cancelAll`: resolve every outstanding dialog with its
default (in map iteration order) and clear the map. -/
def UIBridge.cancelAll (b : UIBridge) : UIBridge × List Resolution :=
  ({ b with pending := [] },
   b.pending.map (fun p => (p.1, getDefaultResponse p.1 p.2)))

/-- ui-bridge.ts `hasPendingRequests`. -/
def UIBridge.hasPendingRequests (b : UIBridge) : Bool :=
  decide (b.pending ≠ [])

/-- The events that can resolve dialogs, in whatever order they occur: a
client response routed through `handleResponse`, a dialog timeout firing,
and the bulk cancellation run on client disconnect. -/
inductive BridgeEv : Type where
  | response (id : JsVal) (resp : UIResponse)
  | timerFire (id : JsVal)
  | cancelAll
deriving DecidableEq, Repr

/-- One bridge event applied to the bridge state. -/
def bridgeStep (b : UIBridge) : BridgeEv → UIBridge × List Resolution
  | .response id r =>
    let pr := b.handleResponse id r
    (pr.1, pr.2.2)
  | .timerFire id => b.fireTimeout id
  | .cancelAll => b.cancelAll

/-- A sequence of bridge events, collecting all promise resolutions. -/
def bridgeRun (b : UIBridge) : List BridgeEv → UIBridge × List Resolution
  | [] => (b, [])
  | e :: es =>
    let st := bridgeStep b e
    let rest := bridgeRun st.1 es
    (rest.1, st.2 ++ rest.2)

/-! ## WebSocket relay (packages/server/src/ws-server.ts) -/

/-- A successfully parsed client frame: the `HelloMessage` and the
`ClientMessage` union from types.ts, plus a catch-all for JSON whose `type`
matches none of them (the steady-state switch ignores those; before the
handshake anything that is not a hello fails the handshake). -/
inductive ClientFrame : Type where
  | hello (protocolVersion : Int) (clientId : String)
  | command (payload : Json)
  | extUIResponse (id : String) (value : Option String)
      (confirmed : Option Bool) (cancelled : Option Bool)
  | ping
  | unknown (raw : Json)
deriving DecidableEq, Repr

/-- The raw content of a client websocket frame: a parsed message, or text
that `JSON.parse` rejects. -/
inductive RawFrame : Type where
  | valid (f : ClientFrame)
  | invalid
deriving DecidableEq, Repr

/-- The raw content of one line of pi's stdout. -/
inductive RawLine : Type where
  | valid (m : Json)
  | invalid
deriving DecidableEq, Repr

/-- types.ts `WelcomeMessage`. -/
structure WelcomeMessage where
  protocolVersion : Int
  serverId : String
  sessionState : Json
  messages : Json
  currentSeq : Nat
deriving DecidableEq, Repr

/-- A server→client message (types.ts `WelcomeMessage` / `ServerMessage`).
`uiRequest seq m` is the spread `{type, seq, ...message}` of a forwarded
extension UI request, kept as the raw message plus the assigned seq. -/
inductive ServerMsg : Type where
  | welcome (w : WelcomeMessage)
  | event (seq : Nat) (payload : Json)
  | uiRequest (seq : Nat) (raw : Json)
  | pong
  | error (e : ServerError)
deriving DecidableEq, Repr

/-- A JSON line written to pi's stdin: a client command payload relayed
verbatim, an extension UI response, or a gateway-internal correlated command
`{...command, id}` from `sendPiCommand`. -/
inductive PiOut : Type where
  | payload (j : Json)
  | uiResponse (r : UIResponse)
  | srvCommand (ctype : String) (id : String)
deriving DecidableEq, Repr

/-- An observable effect of one relay step. -/
inductive Out : Type where
  | toSock (s : Nat) (m : ServerMsg)
  | closeSock (s : Nat) (code : Nat) (reason : String)
  | toPi (p : PiOut)
deriving DecidableEq, Repr

/-- Per-socket connection state: the `handshakeComplete` closure variable of
`handleConnection`, and whether the socket has been closed. -/
structure Conn where
  handshakeComplete : Bool
  closed : Bool
deriving DecidableEq, Repr

/-- What a `pendingPiCommands` entry will do when resolved: fill the state or
history slot of the welcome being built for a handshaking socket. The two
`sendPiCommand` calls exist only inside `buildWelcomeMessage`. -/
inductive PiCmdKind : Type where
  | welcomeState (sock : Nat)
  | welcomeMessages (sock : Nat)
deriving DecidableEq, Repr

/-- The socket whose welcome a pending internal command belongs to. -/
def PiCmdKind.sock : PiCmdKind → Nat
  | .welcomeState s => s
  | .welcomeMessages s => s

/-- The `command.type` string used in the timeout error message. -/
def PiCmdKind.ctype : PiCmdKind → String
  | .welcomeState _ => "get_state"
  | .welcomeMessages _ => "get_messages"

/-- The in-flight `Promise.all` of `buildWelcomeMessage`: the responses
received so far for one handshaking socket. -/
structure WelcomeWait where
  stateResp : Option Json
  messagesResp : Option Json
deriving DecidableEq, Repr

/-- The `WsServer`'s mutable state: the registered sockets with their
handshake flags, the single client handle (`client`/`clientId`), the event
sequence counter `seq`, the internal command counter `piCommandId` and
pending-command table `pendingPiCommands` (here `pendingPi`), the dialog
bridge, and the in-flight welcome builds. -/
structure GatewayState where
  conns : List (Nat × Conn)
  client : Option Nat
  clientId : Option String
  seq : Nat
  piCommandId : Nat
  pendingPi : List (String × PiCmdKind)
  bridge : UIBridge
  waits : List (Nat × WelcomeWait)
deriving DecidableEq, Repr

/-- The state right after `new WsServer(options)`: the `UIBridge` is built
with `options.extensionUITimeoutMs`, whose default parameter is 60000. -/
def initGateway (extensionUITimeoutMs : Option Nat) : GatewayState :=
  { conns := [], client := none, clientId := none, seq := 0, piCommandId := 0,
    pendingPi := [],
    bridge := { timeoutMs := extensionUITimeoutMs.getD 60000, pending := [] },
    waits := [] }

/-- Is socket `s` registered and not closed (readyState OPEN)? -/
def isOpenConn (g : GatewayState) (s : Nat) : Bool :=
  match alookup g.conns s with
  | some c => ! c.closed
  | none => false

/-- `ws.send` on a specific socket: delivered only while the socket is open
(`ws` silently fails to deliver after close). -/
def emitTo (g : GatewayState) (s : Nat) (m : ServerMsg) : List Out :=
  if isOpenConn g s then [.toSock s m] else []

/-- ws-server.ts `sendToClient`: send to the client handle if one is
connected and open; otherwise the message is simply not delivered. -/
def sendToClient (g : GatewayState) (m : ServerMsg) : List Out :=
  match g.client with
  | some c => emitTo g c m
  | none => []

/-- ws-server.ts `getServerId`. -/
def getServerId : String := "pi-server-1"

/-- ws-server.ts `buildWelcomeMessage`, given the two responses and the
sequence counter read when they have both arrived:
`state = stateResponse.data ?? {}`, `messages = messagesData.messages ?? []`. -/
def buildWelcomeMessage (stateResponse messagesResponse : Json) (seq : Nat) :
    WelcomeMessage :=
  let state := nullish (getField stateResponse "data") (.obj .nil)
  let messagesData := nullish (getField messagesResponse "data") (.obj .nil)
  let messages := nullish (getField messagesData "messages") (.arr .nil)
  { protocolVersion := PROTOCOL_VERSION, serverId := getServerId,
    sessionState := state, messages := messages, currentSeq := seq }

/-- Record one resolved slot of an in-flight welcome; when both slots are
filled the `Promise.all` completes and the welcome is sent to the socket
that performed the hello. -/
def finishWait (g : GatewayState) (s : Nat) (w : WelcomeWait) :
    GatewayState × List Out :=
  match w.stateResp, w.messagesResp with
  | some st, some ms =>
    let g1 := { g with waits := adel g.waits s }
    (g1, emitTo g1 s (.welcome (buildWelcomeMessage st ms g1.seq)))
  | _, _ => ({ g with waits := aset g.waits s w }, [])

/-- The continuation of a resolved `sendPiCommand` promise.  If the wait was
already torn down (its `Promise.all` rejected on the other command's
timeout), resolving the promise has no further effect. -/
def resolveWelcomeSlot (g : GatewayState) (k : PiCmdKind) (resp : Json) :
    GatewayState × List Out :=
  match alookup g.waits k.sock with
  | none => (g, [])
  | some w =>
    match k with
    | .welcomeState _ => finishWait g k.sock { w with stateResp := some resp }
    | .welcomeMessages _ => finishWait g k.sock { w with messagesResp := some resp }

/-- `handlePiMessage`'s first guard: `message.type === "response" &&
typeof message.id === "string"`. -/
def respId (m : Json) : Option String :=
  if getField m "type" = some (.str "response") then getStrField m "id" else none

/-- Steps (2) and (3) of `handlePiMessage`'s classification: extension UI
requests (fire-and-forget forwarded with a fresh seq; dialogs registered with
the bridge and forwarded only if a client is connected), and everything else
wrapped as a sequence-numbered event. -/
def classifyRest (g : GatewayState) (m : Json) : GatewayState × List Out :=
  if isExtensionUIRequest m then
    if isFireAndForget m then
      let g1 := { g with seq := g.seq + 1 }
      (g1, sendToClient g1 (.uiRequest g1.seq m))
    else
      let b1 := g.bridge.registerRequest (getField m "id") (getField m "method")
      match g.client with
      | some c =>
        let g1 := { g with bridge := b1, seq := g.seq + 1 }
        (g1, emitTo g1 c (.uiRequest g1.seq m))
      | none => ({ g with bridge := b1 }, [])
  else
    let g1 := { g with seq := g.seq + 1 }
    (g1, sendToClient g1 (.event g1.seq m))

/-- ws-server.ts `handlePiMessage`: classify one parsed line of pi's stdout.
A `response` whose id matches a pending internal command resolves it and is
consumed; otherwise the message falls through to the rest of the
classification. -/
def handlePiMessage (g : GatewayState) (m : Json) : GatewayState × List Out :=
  match respId m with
  | some i =>
    match alookup g.pendingPi i with
    | some kind => resolveWelcomeSlot { g with pendingPi := adel g.pendingPi i } kind m
    | none => classifyRest g m
  | none => classifyRest g m

/-- ws-server.ts `handleClientMessage`: one post-handshake client message. -/
def handleClientMessage (g : GatewayState) : ClientFrame → GatewayState × List Out
  | .command payload => (g, [.toPi (.payload payload)])
  | .extUIResponse id value confirmed cancelled =>
    let resp : UIResponse :=
      { id := some (.str id), value := value, confirmed := confirmed,
        cancelled := cancelled }
    let pr := g.bridge.handleResponse (some (.str id)) resp
    ({ g with bridge := pr.1 }, (pr.2.2).map (fun r => .toPi (.uiResponse r.2)))
  | .ping => (g, sendToClient g .pong)
  | .hello _ _ => (g, [])
  | .unknown _ => (g, [])

/-- `handleConnection`'s entry: reject when a client handle is held,
otherwise register the socket's message handler. -/
def stepConnect (g : GatewayState) (s : Nat) : GatewayState × List Out :=
  match g.client with
  | some _ =>
    (g, [.toSock s (.error (createError "INTERNAL_ERROR"
           "Another client is already connected" none)),
         .closeSock s 1008 "Another client is already connected"])
  | none =>
    ({ g with conns := aset g.conns s { handshakeComplete := false, closed := false } },
     [])

/-- `handleConnection`'s message handler: parse, then either the handshake
path (hello expected) or the steady-state path. A successful hello registers
the client and starts the two correlated `sendPiCommand`s of
`buildWelcomeMessage` (ids `srv_<n>` from the pre-incremented counter). -/
def stepFrame (g : GatewayState) (s : Nat) (f : RawFrame) : GatewayState × List Out :=
  match alookup g.conns s with
  | none => (g, [])
  | some c =>
    if c.closed then (g, []) else
    match f with
    | .invalid =>
      (g, [.toSock s (.error (createError "INTERNAL_ERROR" "Invalid JSON" none))])
    | .valid msg =>
      if c.handshakeComplete then
        handleClientMessage g msg
      else
        match msg with
        | .hello v cid =>
          if v = PROTOCOL_VERSION then
            let id1 := "srv_" ++ toString (g.piCommandId + 1)
            let id2 := "srv_" ++ toString (g.piCommandId + 2)
            ({ g with
                client := some s
                clientId := some cid
                conns := aset g.conns s { c with handshakeComplete := true }
                piCommandId := g.piCommandId + 2
                pendingPi := aset (aset g.pendingPi id1 (.welcomeState s)) id2
                  (.welcomeMessages s)
                waits := aset g.waits s { stateResp := none, messagesResp := none } },
             [.toPi (.srvCommand "get_state" id1),
              .toPi (.srvCommand "get_messages" id2)])
          else
            ({ g with conns := aset g.conns s { c with closed := true } },
             [.toSock s (.error (createIncompatibleProtocolError v PROTOCOL_VERSION)),
              .closeSock s 1002 "Incompatible protocol version"])
        | _ =>
          ({ g with conns := aset g.conns s { c with closed := true } },
           [.toSock s (.error (createError "INVALID_HELLO"
              "First message must be a HelloMessage" none)),
            .closeSock s 1002 "Invalid handshake"])

/-- The socket's close handler: if the closing socket is the client handle,
clear it and cancel all pending dialogs so pi doesn't hang. -/
def stepSockClosed (g : GatewayState) (s : Nat) : GatewayState × List Out :=
  match alookup g.conns s with
  | none => (g, [])
  | some c =>
    let g1 := { g with conns := aset g.conns s { c with closed := true } }
    if g.client = some s then
      let pr := g1.bridge.cancelAll
      ({ g1 with client := none, clientId := none, bridge := pr.1 },
       pr.2.map (fun r => .toPi (.uiResponse r.2)))
    else (g1, [])

/-- A dialog timeout firing (see `UIBridge.fireTimeout`); the resolved
default is sent to pi by the relay's registration continuation. -/
def stepUITimer (g : GatewayState) (id : JsVal) : GatewayState × List Out :=
  let pr := g.bridge.fireTimeout id
  ({ g with bridge := pr.1 }, pr.2.map (fun r => .toPi (.uiResponse r.2)))

/-- Mark a socket closed in the connection table. -/
def closeConn (l : List (Nat × Conn)) (s : Nat) : List (Nat × Conn) :=
  match alookup l s with
  | some c => aset l s { c with closed := true }
  | none => l

/-- The 10s timeout of an internal `sendPiCommand`: remove the pending entry
and reject.  The first rejection of a handshake's `Promise.all` runs the
`catch` in `handleConnection`: error to the socket, close it, clear the
client handle. -/
def stepPiCmdTimer (g : GatewayState) (i : String) : GatewayState × List Out :=
  match alookup g.pendingPi i with
  | none => (g, [])
  | some k =>
    let g1 := { g with pendingPi := adel g.pendingPi i }
    match alookup g1.waits k.sock with
    | none => (g1, [])
    | some _ =>
      ({ g1 with
          waits := adel g1.waits k.sock
          client := none
          clientId := none
          conns := closeConn g1.conns k.sock },
       emitTo g1 k.sock (.error (createError "PI_PROCESS_ERROR"
         ("Failed to get session state: Timeout waiting for pi response to "
           ++ k.ctype) none))
       ++ [.closeSock k.sock 1011 "Failed to sync state"])

/-- The event alphabet of one relay: socket connections, client frames,
socket closures, lines on pi's stdout, and the two timer families. -/
inductive GatewayEv : Type where
  | connect (s : Nat)
  | frame (s : Nat) (f : RawFrame)
  | sockClosed (s : Nat)
  | piLine (l : RawLine)
  | uiTimer (id : JsVal)
  | piCmdTimer (id : String)
deriving DecidableEq, Repr

/-- One event applied to the relay.  A non-JSON line on pi's stdout is
dropped by the `readline` handler's catch block. -/
def step (g : GatewayState) : GatewayEv → GatewayState × List Out
  | .connect s => stepConnect g s
  | .frame s f => stepFrame g s f
  | .sockClosed s => stepSockClosed g s
  | .piLine .invalid => (g, [])
  | .piLine (.valid m) => handlePiMessage g m
  | .uiTimer id => stepUITimer g id
  | .piCmdTimer i => stepPiCmdTimer g i

/-- A sequence of events applied to the relay, collecting all outputs. -/
def run (g : GatewayState) : List GatewayEv → GatewayState × List Out
  | [] => (g, [])
  | e :: es =>
    let st := step g e
    let rest := run st.1 es
    (rest.1, st.2 ++ rest.2)

/-! ## Observations over output traces -/

/-- The sequence number carried by a server message, when it has one
(events and forwarded extension UI requests are the numbered messages). -/
def seqOf : ServerMsg → Option Nat
  | .event n _ => some n
  | .uiRequest n _ => some n
  | _ => none

/-- The sequence numbers of numbered messages delivered to socket `c`. -/
def seqsTo (c : Nat) (outs : List Out) : List Nat :=
  outs.filterMap (fun o =>
    match o with
    | .toSock s m => if s = c then seqOf m else none
    | _ => none)

/-- All sequence numbers delivered to any socket, in delivery order. -/
def deliveredSeqs (outs : List Out) : List Nat :=
  outs.filterMap (fun o =>
    match o with
    | .toSock _ m => seqOf m
    | _ => none)

/-- Gapless: each element is the successor of the one before it. -/
def noGaps : List Nat → Bool
  | [] => true
  | [_] => true
  | a :: b :: t => (decide (b = a + 1)) && noGaps (b :: t)

/-- The extension UI responses written to pi's stdin, in order. -/
def uiResponsesToPi (outs : List Out) : List UIResponse :=
  outs.filterMap (fun o =>
    match o with
    | .toPi (.uiResponse r) => some r
    | _ => none)

/-- The welcome messages delivered to socket `s`. -/
def welcomesTo (s : Nat) (outs : List Out) : List WelcomeMessage :=
  outs.filterMap (fun o =>
    match o with
    | .toSock s2 (.welcome w) => if s2 = s then some w else none
    | _ => none)

/-- The client handle points at socket `c` and that socket is open. -/
def clientOpenB (g : GatewayState) (c : Nat) : Bool :=
  decide (g.client = some c) && isOpenConn g c

/-- Socket `c` is the connected, open client at every point of the run. -/
def stayConnected (c : Nat) : GatewayState → List GatewayEv → Bool
  | g, [] => clientOpenB g c
  | g, e :: es => clientOpenB g c && stayConnected c (step g e).1 es

/-! ## Concrete scenarios

Backend responses and event sequences used as witnesses and
counterexamples.  `respState n` / `respMessages n` are pi's replies to the
gateway-internal `get_state` / `get_messages` commands with id `srv_<n>`;
`dlgRequest` is a blocking extension UI request. -/

/-- Two plain backend events arriving while the client is connected. -/
def twoEventEvs : List GatewayEv :=
  [.piLine (.valid (.str "e1")), .piLine (.valid (.str "e2"))]

/-- A pi `get_state` response `{type, id: "srv_<n>", data: {model: "m"}}`. -/
def respState (n : String) : Json :=
  .obj (.cons "type" (.str "response") (.cons "id" (.str n)
    (.cons "data" (.obj (.cons "model" (.str "m") .nil)) .nil)))

/-- A pi `get_messages` response with an empty message list. -/
def respMessages (n : String) : Json :=
  .obj (.cons "type" (.str "response") (.cons "id" (.str n)
    (.cons "data" (.obj (.cons "messages" (.arr .nil) .nil)) .nil)))

/-- A blocking extension UI request from pi. -/
def dlgRequest (id method : String) : Json :=
  .obj (.cons "type" (.str "extension_ui_request") (.cons "id" (.str id)
    (.cons "method" (.str method) .nil)))

/-- A late pi response whose pending entry no longer exists. -/
def lateResp : Json :=
  .obj (.cons "type" (.str "response") (.cons "id" (.str "srv_1") .nil))

/-- Connect socket 0, complete its handshake, and let both internal state
fetches resolve (so the welcome is emitted). -/
def helloOkEvs : List GatewayEv :=
  [.connect 0, .frame 0 (.valid (.hello 1 "c1")),
   .piLine (.valid (respState "srv_1")), .piLine (.valid (respMessages "srv_2"))]

/-- After the handshake: one delivered event, a disconnect, one event emitted
while no client is connected, a reconnect of the same client, and one more
delivered event. -/
def reconnectEvs : List GatewayEv :=
  helloOkEvs ++ [.piLine (.valid (.str "e1")), .sockClosed 0,
    .piLine (.valid (.str "e2")),
    .connect 1, .frame 1 (.valid (.hello 1 "c1")),
    .piLine (.valid (respState "srv_3")), .piLine (.valid (respMessages "srv_4")),
    .piLine (.valid (.str "e3"))]

/-- After the handshake: three blocking dialogs arrive, then the client
disconnects. -/
def threeDialogEvs : List GatewayEv :=
  helloOkEvs ++ [.piLine (.valid (dlgRequest "d1" "select")),
    .piLine (.valid (dlgRequest "d2" "confirm")),
    .piLine (.valid (dlgRequest "d3" "input"))]

/-- The gateway state with the three dialogs outstanding. -/
def threeDialogState : GatewayState :=
  (run (initGateway none) threeDialogEvs).1

/-- Two sockets connect before either sends its hello; both then handshake
and both send a command. -/
def raceEvs : List GatewayEv :=
  [.connect 0, .connect 1, .frame 0 (.valid (.hello 1 "a")),
   .frame 1 (.valid (.hello 1 "b")),
   .frame 0 (.valid (.command (.str "cmdA"))),
   .frame 1 (.valid (.command (.str "cmdB")))]

/-- Socket 0's handshake state-fetch times out (removing `srv_1` from the
pending table); socket 1 then connects and handshakes; afterwards pi's
answer to `srv_1` finally arrives. -/
def lateRespEvs : List GatewayEv :=
  [.connect 0, .frame 0 (.valid (.hello 1 "c1")), .piCmdTimer "srv_1",
   .connect 1, .frame 1 (.valid (.hello 1 "c1")),
   .piLine (.valid (respState "srv_3")), .piLine (.valid (respMessages "srv_4"))]

/-- The state right before the late `srv_1` response arrives. -/
def lateRespState : GatewayState :=
  (run (initGateway none) lateRespEvs).1

/-- A bridge with two dialogs pending: d1 (confirm) and d2 (select). -/
def twoDialogBridge : UIBridge :=
  { timeoutMs := 60000,
    pending := [(some (.str "d1"), some (.str "confirm")),
                (some (.str "d2"), some (.str "select"))] }

/-- The client's answer to dialog d1. -/
def d1Answer : BridgeEv :=
  .response (some (.str "d1")) { id := some (.str "d1"), confirmed := some true }

/-! ## Exactly-once resolution of dialogs -/

/-- Does a bridge event target the given pending id?  (`cancelAll` targets
every pending id.) -/
def hitsId (id : JsVal) : BridgeEv → Bool
  | .response i _ => decide (i = id)
  | .timerFire i => decide (i = id)
  | .cancelAll => true

/-- The value the first id-targeting event resolves a dialog with: the
client's response, or the method default on timeout and cancellation. -/
def firstHitResponse (id method : JsVal) : BridgeEv → UIResponse
  | .response _ r => r
  | .timerFire _ => getDefaultResponse id method
  | .cancelAll => getDefaultResponse id method

/-- The resolutions of the given id within a resolution trace. -/
def resolutionsFor (id : JsVal) (rs : List Resolution) : List Resolution :=
  rs.filter (fun p => decide (p.1 = id))

theorem resolutionsFor_append (id : JsVal) (l1 l2 : List Resolution) :
    resolutionsFor id (l1 ++ l2) = resolutionsFor id l1 ++ resolutionsFor id l2 := by
  simp [resolutionsFor]

theorem alookup_none_forall {α β : Type} [DecidableEq α]
    (l : List (α × β)) (key : α) (h : alookup l key = none) :
    ∀ p ∈ l, p.1 ≠ key := by
  induction l with
  | nil => simp
  | cons p t ih =>
    obtain ⟨k, w⟩ := p
    by_cases hk : k = key
    · simp [alookup, hk] at h
    · simp only [alookup, hk, if_false] at h
      intro q hq
      rcases List.mem_cons.mp hq with hq | hq
      · subst hq; exact hk
      · exact ih h q hq

theorem adel_sublist {α β : Type} [DecidableEq α] (l : List (α × β)) (key : α) :
    List.Sublist (adel l key) l := by
  induction l with
  | nil => simp [adel]
  | cons p t ih =>
    obtain ⟨k, w⟩ := p
    by_cases hk : k = key
    · simp only [adel, hk, if_true]
      exact ih.trans (List.sublist_cons_self _ _)
    · simp only [adel, hk, if_false]
      exact ih.cons₂ _

/-- Every bridge event preserves uniqueness of pending ids. -/
theorem bridgeStep_nodup (b : UIBridge) (e : BridgeEv)
    (h : (b.pending.map Prod.fst).Nodup) :
    (((bridgeStep b e).1).pending.map Prod.fst).Nodup := by
  cases e with
  | response i r =>
    cases hl : alookup b.pending i with
    | none => simpa [bridgeStep, UIBridge.handleResponse, hl] using h
    | some v =>
      simp only [bridgeStep, UIBridge.handleResponse, hl]
      exact h.sublist ((adel_sublist b.pending i).map Prod.fst)
  | timerFire i =>
    cases hl : alookup b.pending i with
    | none => simpa [bridgeStep, UIBridge.fireTimeout, hl] using h
    | some v =>
      simp only [bridgeStep, UIBridge.fireTimeout, hl]
      exact h.sublist ((adel_sublist b.pending i).map Prod.fst)
  | cancelAll => simp [bridgeStep, UIBridge.cancelAll]

/-- A non-targeting event leaves the id's entry alone and resolves nothing
for it. -/
theorem bridgeStep_miss (b : UIBridge) (id : JsVal) (e : BridgeEv)
    (h : hitsId id e = false) :
    alookup (bridgeStep b e).1.pending id = alookup b.pending id
    ∧ resolutionsFor id (bridgeStep b e).2 = [] := by
  cases e with
  | response i r =>
    have hne : ¬ i = id := by simpa [hitsId] using h
    cases hl : alookup b.pending i with
    | none => simp [bridgeStep, UIBridge.handleResponse, hl, resolutionsFor]
    | some v =>
      constructor
      · simp only [bridgeStep, UIBridge.handleResponse, hl]
        exact alookup_adel_ne b.pending i id (fun hh => hne hh.symm)
      · simp [bridgeStep, UIBridge.handleResponse, hl, resolutionsFor, hne]
  | timerFire i =>
    have hne : ¬ i = id := by simpa [hitsId] using h
    cases hl : alookup b.pending i with
    | none => simp [bridgeStep, UIBridge.fireTimeout, hl, resolutionsFor]
    | some v =>
      constructor
      · simp only [bridgeStep, UIBridge.fireTimeout, hl]
        exact alookup_adel_ne b.pending i id (fun hh => hne hh.symm)
      · simp [bridgeStep, UIBridge.fireTimeout, hl, resolutionsFor, hne]
  | cancelAll => simp [hitsId] at h

/-- After an id has been removed from the pending table, no event resolves
it again (`handleResponse` and a cleared timer are no-ops, and `cancelAll`
only touches pending entries). -/
theorem bridgeStep_after (b : UIBridge) (id : JsVal) (e : BridgeEv)
    (h : alookup b.pending id = none) :
    alookup (bridgeStep b e).1.pending id = none
    ∧ resolutionsFor id (bridgeStep b e).2 = [] := by
  cases e with
  | response i r =>
    by_cases hi : i = id
    · subst hi; simp [bridgeStep, UIBridge.handleResponse, h, resolutionsFor]
    · cases hl : alookup b.pending i with
      | none => simp [bridgeStep, UIBridge.handleResponse, hl, resolutionsFor, h]
      | some v =>
        constructor
        · simp only [bridgeStep, UIBridge.handleResponse, hl]
          rw [alookup_adel_ne b.pending i id (fun hh => hi hh.symm)]
          exact h
        · simp [bridgeStep, UIBridge.handleResponse, hl, resolutionsFor, hi]
  | timerFire i =>
    by_cases hi : i = id
    · subst hi; simp [bridgeStep, UIBridge.fireTimeout, h, resolutionsFor]
    · cases hl : alookup b.pending i with
      | none => simp [bridgeStep, UIBridge.fireTimeout, hl, resolutionsFor, h]
      | some v =>
        constructor
        · simp only [bridgeStep, UIBridge.fireTimeout, hl]
          rw [alookup_adel_ne b.pending i id (fun hh => hi hh.symm)]
          exact h
        · simp [bridgeStep, UIBridge.fireTimeout, hl, resolutionsFor, hi]
  | cancelAll =>
    have hall := alookup_none_forall b.pending id h
    constructor
    · simp [bridgeStep, UIBridge.cancelAll, alookup]
    · simp only [bridgeStep, UIBridge.cancelAll, resolutionsFor]
      rw [List.filter_eq_nil_iff]
      intro q hq
      rcases List.mem_map.mp hq with ⟨p, hp, rfl⟩
      simpa using hall p hp

/-- With unique pending ids, `cancelAll` resolves a pending id exactly once,
with its method default. -/
theorem resolutionsFor_cancel (l : List (JsVal × JsVal)) (id v : JsVal)
    (hnd : (l.map Prod.fst).Nodup) (h : alookup l id = some v) :
    resolutionsFor id (l.map (fun p => (p.1, getDefaultResponse p.1 p.2)))
      = [(id, getDefaultResponse id v)] := by
  induction l with
  | nil => simp [alookup] at h
  | cons p t ih =>
    obtain ⟨k, w⟩ := p
    simp only [List.map_cons] at hnd
    rcases List.nodup_cons.mp hnd with ⟨hkt, hndt⟩
    by_cases hk : k = id
    · subst hk
      have hwv : w = v := by simpa [alookup] using h
      subst hwv
      have htail : List.filter (fun p => decide (p.1 = k))
          (t.map (fun p => (p.1, getDefaultResponse p.1 p.2))) = [] := by
        rw [List.filter_eq_nil_iff]
        intro q hq
        rcases List.mem_map.mp hq with ⟨u, hu, rfl⟩
        simp only [decide_eq_true_eq]
        intro hh
        exact hkt (by rw [← hh]; exact List.mem_map_of_mem Prod.fst hu)
      simp [resolutionsFor, List.map_cons, List.filter_cons, htail]
    · simp only [alookup, hk, if_false] at h
      have := ih hndt h
      simpa [resolutionsFor, List.map_cons, List.filter_cons, hk] using this

/-- A targeting event resolves a pending id exactly once, with the client's
response or the method default, and removes the entry. -/
theorem bridgeStep_hit (b : UIBridge) (id method : JsVal) (e : BridgeEv)
    (hnd : (b.pending.map Prod.fst).Nodup)
    (hpend : alookup b.pending id = some method)
    (he : hitsId id e = true) :
    alookup (bridgeStep b e).1.pending id = none
    ∧ resolutionsFor id (bridgeStep b e).2 = [(id, firstHitResponse id method e)] := by
  cases e with
  | response i r =>
    have hi : i = id := by simpa [hitsId] using he
    subst hi
    constructor
    · simp [bridgeStep, UIBridge.handleResponse, hpend, alookup_adel_self]
    · simp [bridgeStep, UIBridge.handleResponse, hpend, resolutionsFor,
        firstHitResponse]
  | timerFire i =>
    have hi : i = id := by simpa [hitsId] using he
    subst hi
    constructor
    · simp [bridgeStep, UIBridge.fireTimeout, hpend, alookup_adel_self]
    · simp [bridgeStep, UIBridge.fireTimeout, hpend, resolutionsFor,
        firstHitResponse]
  | cancelAll =>
    constructor
    · simp [bridgeStep, UIBridge.cancelAll, alookup]
    · simpa [bridgeStep, UIBridge.cancelAll, firstHitResponse] using
        resolutionsFor_cancel b.pending id method hnd hpend

theorem bridgeRun_nodup (b : UIBridge) (l : List BridgeEv)
    (h : (b.pending.map Prod.fst).Nodup) :
    (((bridgeRun b l).1).pending.map Prod.fst).Nodup := by
  induction l generalizing b with
  | nil => simpa [bridgeRun] using h
  | cons e t ih => simpa [bridgeRun] using ih (bridgeStep b e).1 (bridgeStep_nodup b e h)

theorem bridgeRun_miss (b : UIBridge) (id : JsVal) (l : List BridgeEv)
    (h : ∀ x ∈ l, hitsId id x = false) :
    alookup (bridgeRun b l).1.pending id = alookup b.pending id
    ∧ resolutionsFor id (bridgeRun b l).2 = [] := by
  induction l generalizing b with
  | nil => simp [bridgeRun, resolutionsFor]
  | cons e t ih =>
    have h1 := bridgeStep_miss b id e (h e (List.mem_cons_self e t))
    have h2 := ih (bridgeStep b e).1 (fun x hx => h x (List.mem_cons_of_mem e hx))
    constructor
    · simpa [bridgeRun] using h2.1.trans h1.1
    · simp only [bridgeRun]
      rw [resolutionsFor_append, h1.2, h2.2]
      rfl

theorem bridgeRun_after (b : UIBridge) (id : JsVal) (l : List BridgeEv)
    (h : alookup b.pending id = none) :
    alookup (bridgeRun b l).1.pending id = none
    ∧ resolutionsFor id (bridgeRun b l).2 = [] := by
  induction l generalizing b with
  | nil => simpa [bridgeRun, resolutionsFor] using h
  | cons e t ih =>
    have h1 := bridgeStep_after b id e h
    have h2 := ih (bridgeStep b e).1 h1.1
    constructor
    · simpa [bridgeRun] using h2.1
    · simp only [bridgeRun]
      rw [resolutionsFor_append, h1.2, h2.2]
      rfl

/-! ## A closed socket stays closed and never receives a welcome -/

theorem handlePiMessage_conns (g : GatewayState) (m : Json) :
    (handlePiMessage g m).1.conns = g.conns := by
  unfold handlePiMessage resolveWelcomeSlot finishWait classifyRest
  repeat' split
  all_goals rfl

/-- `isOpenConn` only reads the connection table. -/
theorem isOpenConn_congr (g1 g2 : GatewayState) (s : Nat)
    (h : g1.conns = g2.conns) : isOpenConn g1 s = isOpenConn g2 s := by
  simp [isOpenConn, h]

/-- `isOpenConn` after an update of a different socket's entry. -/
theorem isOpenConn_eq_of_alookup (g2 g : GatewayState) (s : Nat)
    (h : alookup g2.conns s = alookup g.conns s) :
    isOpenConn g2 s = isOpenConn g s := by
  simp [isOpenConn, h]

/-- A closed (or never-registered) socket stays closed under every event
except a fresh connection with the same socket id — which cannot occur for
a given physical socket. -/
theorem closed_persists (g : GatewayState) (s : Nat) (e : GatewayEv)
    (h : isOpenConn g s = false) (hne : e ≠ GatewayEv.connect s) :
    isOpenConn (step g e).1 s = false := by
  cases e with
  | connect s2 =>
    have hs2 : ¬ s2 = s := fun hh => hne (by rw [hh])
    cases hcl : g.client with
    | some c => simpa [step, stepConnect, hcl] using h
    | none =>
      simp only [step, stepConnect, hcl]
      exact Eq.trans (isOpenConn_eq_of_alookup _ g s
        (alookup_aset_ne g.conns s2 s _ (fun hh => hs2 hh.symm))) h
  | frame s2 f =>
    simp only [step, stepFrame]
    cases hc : alookup g.conns s2 with
    | none => simpa using h
    | some c =>
      by_cases hcl : c.closed
      · simpa [hcl] using h
      · have hs2 : ¬ s2 = s := by
          intro hh
          subst hh
          simp [isOpenConn, hc, hcl] at h
        have hne2 : s ≠ s2 := fun hh => hs2 hh.symm
        simp only [if_neg hcl]
        cases f with
        | invalid => simpa using h
        | valid msg =>
          by_cases hhs : c.handshakeComplete
          · simp only [if_pos hhs]
            cases msg with
            | hello v cid => simpa [handleClientMessage] using h
            | command p => simpa [handleClientMessage] using h
            | extUIResponse i vl cf cl => simpa [handleClientMessage, isOpenConn] using h
            | ping => simpa [handleClientMessage] using h
            | unknown j => simpa [handleClientMessage] using h
          · simp only [if_neg hhs]
            cases msg with
            | hello v cid =>
              by_cases hv : v = PROTOCOL_VERSION
              · simp only [if_pos hv]
                exact Eq.trans (isOpenConn_eq_of_alookup _ g s
                  (alookup_aset_ne g.conns s2 s _ hne2)) h
              · simp only [if_neg hv]
                exact Eq.trans (isOpenConn_eq_of_alookup _ g s
                  (alookup_aset_ne g.conns s2 s _ hne2)) h
            | command p =>
              exact Eq.trans (isOpenConn_eq_of_alookup _ g s
                (alookup_aset_ne g.conns s2 s _ hne2)) h
            | extUIResponse i vl cf cl =>
              exact Eq.trans (isOpenConn_eq_of_alookup _ g s
                (alookup_aset_ne g.conns s2 s _ hne2)) h
            | ping =>
              exact Eq.trans (isOpenConn_eq_of_alookup _ g s
                (alookup_aset_ne g.conns s2 s _ hne2)) h
            | unknown j =>
              exact Eq.trans (isOpenConn_eq_of_alookup _ g s
                (alookup_aset_ne g.conns s2 s _ hne2)) h
  | sockClosed s2 =>
    simp only [step, stepSockClosed]
    cases hc : alookup g.conns s2 with
    | none => simpa using h
    | some c =>
      by_cases hs : s2 = s
      · subst hs
        by_cases hcli : g.client = some s2
        · simp only [if_pos hcli]
          simp [isOpenConn, alookup_aset_self]
        · simp only [if_neg hcli]
          simp [isOpenConn, alookup_aset_self]
      · have hne2 : s ≠ s2 := fun hh => hs hh.symm
        by_cases hcli : g.client = some s2
        · simp only [if_pos hcli]
          exact Eq.trans (isOpenConn_eq_of_alookup _ g s
            (alookup_aset_ne g.conns s2 s _ hne2)) h
        · simp only [if_neg hcli]
          exact Eq.trans (isOpenConn_eq_of_alookup _ g s
            (alookup_aset_ne g.conns s2 s _ hne2)) h
  | piLine l =>
    cases l with
    | invalid => simpa [step] using h
    | valid m =>
      rw [isOpenConn_congr _ g s (by simpa [step] using handlePiMessage_conns g m)]
      exact h
  | uiTimer id => simpa [step, stepUITimer, isOpenConn] using h
  | piCmdTimer i =>
    simp only [step, stepPiCmdTimer]
    split
    · simpa using h
    · rename_i k hp
      split
      · simpa using h
      · rename_i w hw
        by_cases hs : k.sock = s
        · subst hs
          simp only [isOpenConn, closeConn]
          cases hc : alookup g.conns k.sock with
          | none => simp [hc]
          | some c => simp [hc, alookup_aset_self]
        · refine Eq.trans (isOpenConn_eq_of_alookup _ g s ?_) h
          simp only [closeConn]
          cases hc : alookup g.conns k.sock with
          | none => rfl
          | some c => exact alookup_aset_ne g.conns k.sock s _ (fun hh => hs hh.symm)

/-- Nothing is ever sent through `emitTo` to a socket that is closed. -/
theorem not_welcome_emitTo_closed (g1 : GatewayState) (s2 s : Nat) (m : ServerMsg)
    (w : WelcomeMessage) (h : isOpenConn g1 s = false) :
    Out.toSock s (.welcome w) ∉ emitTo g1 s2 m := by
  unfold emitTo
  by_cases hs : s2 = s
  · subst hs
    simp [h]
  · split
    · simp only [List.mem_singleton]
      intro heq
      injection heq with h1 h2
      exact hs h1.symm
    · simp

theorem not_welcome_sendToClient_closed (g1 : GatewayState) (s : Nat) (m : ServerMsg)
    (w : WelcomeMessage) (h : isOpenConn g1 s = false) :
    Out.toSock s (.welcome w) ∉ sendToClient g1 m := by
  unfold sendToClient
  cases g1.client with
  | none => simp
  | some c => exact not_welcome_emitTo_closed g1 c s m w h

theorem not_welcome_classifyRest (g : GatewayState) (s : Nat) (m : Json)
    (w : WelcomeMessage) (h : isOpenConn g s = false) :
    Out.toSock s (.welcome w) ∉ (classifyRest g m).2 := by
  unfold classifyRest
  split
  · split
    · exact not_welcome_sendToClient_closed _ s _ w
        ((isOpenConn_congr _ g s rfl).trans h)
    · split
      · exact not_welcome_emitTo_closed _ _ s _ w
          ((isOpenConn_congr _ g s rfl).trans h)
      · simp
  · exact not_welcome_sendToClient_closed _ s _ w
      ((isOpenConn_congr _ g s rfl).trans h)

theorem not_welcome_resolveWelcomeSlot (g : GatewayState) (s : Nat) (k : PiCmdKind)
    (m : Json) (w : WelcomeMessage) (h : isOpenConn g s = false) :
    Out.toSock s (.welcome w) ∉ (resolveWelcomeSlot g k m).2 := by
  unfold resolveWelcomeSlot finishWait
  repeat' split
  all_goals
    try (refine not_welcome_emitTo_closed _ _ s _ w ?_ ; exact h)
  all_goals simp

/-- A welcome is only ever emitted to an open socket: once a socket is
closed, no step delivers a welcome to it. -/
theorem step_no_welcome_to_closed (g : GatewayState) (s : Nat) (e : GatewayEv)
    (h : isOpenConn g s = false) :
    ∀ w, Out.toSock s (.welcome w) ∉ (step g e).2 := by
  intro w
  cases e with
  | connect s2 =>
    cases hcl : g.client with
    | some c => simp [step, stepConnect, hcl]
    | none => simp [step, stepConnect, hcl]
  | frame s2 f =>
    simp only [step, stepFrame]
    cases hc : alookup g.conns s2 with
    | none => simp
    | some c =>
      by_cases hcl : c.closed
      · simp [hcl]
      · simp only [if_neg hcl]
        cases f with
        | invalid => simp
        | valid msg =>
          by_cases hhs : c.handshakeComplete
          · simp only [if_pos hhs]
            cases msg with
            | hello v cid => simp [handleClientMessage]
            | command p => simp [handleClientMessage]
            | extUIResponse i vl cf cl => simp [handleClientMessage]
            | ping =>
              simp only [handleClientMessage]
              exact not_welcome_sendToClient_closed g s _ w h
            | unknown j => simp [handleClientMessage]
          · simp only [if_neg hhs]
            cases msg with
            | hello v cid =>
              by_cases hv : v = PROTOCOL_VERSION
              · simp [if_pos hv]
              · simp [if_neg hv]
            | command p => simp
            | extUIResponse i vl cf cl => simp
            | ping => simp
            | unknown j => simp
  | sockClosed s2 =>
    simp only [step, stepSockClosed]
    cases hc : alookup g.conns s2 with
    | none => simp
    | some c =>
      by_cases hcli : g.client = some s2
      · simp [if_pos hcli]
      · simp [if_neg hcli]
  | piLine l =>
    cases l with
    | invalid => simp [step]
    | valid m =>
      simp only [step, handlePiMessage]
      split
      · split
        · refine not_welcome_resolveWelcomeSlot _ s _ m w ?_
          exact h
        · exact not_welcome_classifyRest g s m w h
      · exact not_welcome_classifyRest g s m w h
  | uiTimer id => simp [step, stepUITimer]
  | piCmdTimer i =>
    simp only [step, stepPiCmdTimer]
    split
    · simp
    · split
      · simp
      · intro hmem
        rcases List.mem_append.mp hmem with hm | hm
        · revert hm
          refine not_welcome_emitTo_closed _ _ s _ w ?_
          exact h
        · simp at hm

/-- Once a socket is closed, no later event sequence (short of a fresh
connection reusing the socket id, which cannot happen to a real socket)
delivers a welcome to it. -/
theorem run_no_welcome_to_closed (g : GatewayState) (s : Nat) (evs : List GatewayEv)
    (h : isOpenConn g s = false)
    (hne : ∀ e ∈ evs, e ≠ GatewayEv.connect s) :
    ∀ w, Out.toSock s (.welcome w) ∉ (run g evs).2 := by
  induction evs generalizing g with
  | nil =>
    intro w
    simp [run]
  | cons e t ih =>
    intro w
    simp only [run]
    intro hmem
    rcases List.mem_append.mp hmem with hm | hm
    · exact step_no_welcome_to_closed g s e h w hm
    · exact ih (step g e).1
        (closed_persists g s e h (hne e (List.mem_cons_self e t)))
        (fun x hx => hne x (List.mem_cons_of_mem e hx)) w hm

/-! ## Sequence-number delivery -/

theorem emitTo_open (g1 : GatewayState) (s : Nat) (m : ServerMsg)
    (hop : isOpenConn g1 s = true) : emitTo g1 s m = [.toSock s m] := by
  simp [emitTo, hop]

theorem sendToClient_open (g1 : GatewayState) (c : Nat) (m : ServerMsg)
    (hcl : g1.client = some c) (hop : isOpenConn g1 c = true) :
    sendToClient g1 m = [Out.toSock c m] := by
  simp [sendToClient, hcl, emitTo, hop]

theorem seqsTo_append (c : Nat) (l1 l2 : List Out) :
    seqsTo c (l1 ++ l2) = seqsTo c l1 ++ seqsTo c l2 := by
  simp [seqsTo]

theorem seqsTo_map_toPi (c : Nat) (rs : List Resolution) :
    seqsTo c (rs.map (fun r => Out.toPi (.uiResponse r.2))) = [] := by
  induction rs with
  | nil => rfl
  | cons r t ih => simp [seqsTo]

theorem seqsTo_emitTo_nonseq (c : Nat) (g1 : GatewayState) (s2 : Nat)
    (m : ServerMsg) (h : seqOf m = none) : seqsTo c (emitTo g1 s2 m) = [] := by
  unfold emitTo
  split
  · simp [seqsTo, h]
  · rfl

theorem resolveWelcomeSlot_seq (g : GatewayState) (k : PiCmdKind) (m : Json) :
    (resolveWelcomeSlot g k m).1.seq = g.seq := by
  unfold resolveWelcomeSlot finishWait
  repeat' split
  all_goals rfl

theorem seqsTo_resolveWelcomeSlot (c : Nat) (g : GatewayState) (k : PiCmdKind)
    (m : Json) : seqsTo c (resolveWelcomeSlot g k m).2 = [] := by
  unfold resolveWelcomeSlot finishWait
  repeat' split
  all_goals first
    | rfl
    | exact seqsTo_emitTo_nonseq c _ _ _ rfl

/-- While a client is connected and open, `classifyRest` always assigns the
next sequence number and delivers the numbered message to that client. -/
theorem classifyRest_connected (g : GatewayState) (c : Nat) (m : Json)
    (hcl : g.client = some c) (hop : isOpenConn g c = true) :
    (classifyRest g m).1.seq = g.seq + 1
    ∧ seqsTo c (classifyRest g m).2 = [g.seq + 1] := by
  unfold classifyRest
  by_cases hext : isExtensionUIRequest m
  · simp only [if_pos hext]
    by_cases hff : isFireAndForget m
    · simp only [if_pos hff]
      have hop1 : isOpenConn { g with client := some c, seq := g.seq + 1 } c = true := hop
      refine ⟨by simp, ?_⟩
      simp [sendToClient, hcl, emitTo, hop1, seqsTo, seqOf]
    · simp only [if_neg hff, hcl]
      have hop1 : isOpenConn
          { g with
              client := some c,
              bridge := g.bridge.registerRequest (getField m "id") (getField m "method"),
              seq := g.seq + 1 } c = true := hop
      refine ⟨by simp, ?_⟩
      simp [emitTo, hop1, seqsTo, seqOf]
  · simp only [if_neg hext]
    have hop1 : isOpenConn { g with client := some c, seq := g.seq + 1 } c = true := hop
    refine ⟨by simp, ?_⟩
    simp [sendToClient, hcl, emitTo, hop1, seqsTo, seqOf]

/-- One step either leaves the sequence counter alone and delivers no
numbered message to the connected client, or advances it by one and delivers
exactly that number. -/
theorem step_seq_delivery (g : GatewayState) (c : Nat) (e : GatewayEv)
    (h1 : clientOpenB g c = true) :
    ((step g e).1.seq = g.seq ∧ seqsTo c (step g e).2 = [])
    ∨ ((step g e).1.seq = g.seq + 1 ∧ seqsTo c (step g e).2 = [g.seq + 1]) := by
  simp only [clientOpenB, Bool.and_eq_true, decide_eq_true_eq] at h1
  obtain ⟨hcl, hop⟩ := h1
  cases e with
  | connect s2 =>
    left
    simp [step, stepConnect, hcl, seqsTo, seqOf]
  | frame s2 f =>
    simp only [step, stepFrame]
    cases hc : alookup g.conns s2 with
    | none => left; exact ⟨rfl, rfl⟩
    | some c2 =>
      by_cases hc2 : c2.closed
      · left
        simp [hc2, seqsTo]
      · simp only [if_neg hc2]
        cases f with
        | invalid =>
          left
          exact ⟨rfl, by simp [seqsTo, seqOf]⟩
        | valid msg =>
          by_cases hhs : c2.handshakeComplete
          · simp only [if_pos hhs]
            cases msg with
            | hello v cid => left; exact ⟨rfl, rfl⟩
            | command p => left; exact ⟨rfl, by simp [handleClientMessage, seqsTo]⟩
            | extUIResponse i vl cf cl =>
              left
              refine ⟨rfl, ?_⟩
              simp only [handleClientMessage]
              exact seqsTo_map_toPi c _
            | ping =>
              left
              refine ⟨rfl, ?_⟩
              simp only [handleClientMessage]
              rw [sendToClient_open g c ServerMsg.pong hcl hop]
              simp [seqsTo, seqOf]
            | unknown j => left; exact ⟨rfl, rfl⟩
          · simp only [if_neg hhs]
            cases msg with
            | hello v cid =>
              by_cases hv : v = PROTOCOL_VERSION
              · left
                simp only [if_pos hv]
                exact ⟨by simp, by simp [seqsTo, seqOf]⟩
              · left
                simp only [if_neg hv]
                exact ⟨by simp, by simp [seqsTo, seqOf]⟩
            | command p => left; exact ⟨rfl, by simp [seqsTo, seqOf]⟩
            | extUIResponse i vl cf cl => left; exact ⟨rfl, by simp [seqsTo, seqOf]⟩
            | ping => left; exact ⟨rfl, by simp [seqsTo, seqOf]⟩
            | unknown j => left; exact ⟨rfl, by simp [seqsTo, seqOf]⟩
  | sockClosed s2 =>
    simp only [step, stepSockClosed]
    cases hc : alookup g.conns s2 with
    | none => left; exact ⟨rfl, rfl⟩
    | some c2 =>
      by_cases hcli : g.client = some s2
      · left
        simp only [if_pos hcli]
        exact ⟨by simp, seqsTo_map_toPi c _⟩
      · left
        simp only [if_neg hcli]
        exact ⟨by simp, rfl⟩
  | piLine l =>
    cases l with
    | invalid => left; exact ⟨rfl, rfl⟩
    | valid m =>
      simp only [step, handlePiMessage]
      split
      · split
        · left
          exact ⟨resolveWelcomeSlot_seq _ _ m, seqsTo_resolveWelcomeSlot c _ _ m⟩
        · right
          exact classifyRest_connected g c m hcl hop
      · right
        exact classifyRest_connected g c m hcl hop
  | uiTimer id =>
    left
    refine ⟨rfl, ?_⟩
    simp only [step, stepUITimer]
    exact seqsTo_map_toPi c _
  | piCmdTimer i =>
    simp only [step, stepPiCmdTimer]
    split
    · left; exact ⟨rfl, rfl⟩
    · split
      · left; exact ⟨rfl, rfl⟩
      · left
        refine ⟨rfl, ?_⟩
        rw [seqsTo_append, seqsTo_emitTo_nonseq]
        · rfl
        · rfl

theorem bridgeRun_append (b : UIBridge) (l1 l2 : List BridgeEv) :
    bridgeRun b (l1 ++ l2) =
      ((bridgeRun (bridgeRun b l1).1 l2).1,
       (bridgeRun b l1).2 ++ (bridgeRun (bridgeRun b l1).1 l2).2) := by
  induction l1 generalizing b with
  | nil => simp [bridgeRun]
  | cons e t ih => simp [bridgeRun, ih, List.append_assoc]

/-! ## Claims -/

/-- C2: a registered dialog id resolves exactly once — whatever sequence of
non-targeting events precedes it, the first targeting event (client
response, timeout, or cancelAll) produces the single resolution for the id,
with the response it carries (the method default for timeout/cancel); the
entry is removed, any later event for it resolves nothing, and
`handleResponse` for an id with no pending entry returns without effect. -/
theorem dialog_id_resolves_exactly_once
    (b : UIBridge) (id method : JsVal) (pre post : List BridgeEv) (e : BridgeEv)
    (hnd : (b.pending.map Prod.fst).Nodup)
    (hpend : alookup b.pending id = some method)
    (hpre : ∀ x ∈ pre, hitsId id x = false)
    (he : hitsId id e = true) :
    resolutionsFor id (bridgeRun b (pre ++ e :: post)).2
        = [(id, firstHitResponse id method e)]
    ∧ alookup (bridgeRun b (pre ++ e :: post)).1.pending id = none
    ∧ (∀ (b2 : UIBridge) (r : UIResponse), alookup b2.pending id = none →
        b2.handleResponse id r = (b2, false, [])) := by
  have hmiss := bridgeRun_miss b id pre hpre
  have hnd1 := bridgeRun_nodup b pre hnd
  have hpend1 : alookup (bridgeRun b pre).1.pending id = some method :=
    hmiss.1.trans hpend
  have hhit := bridgeStep_hit (bridgeRun b pre).1 id method e hnd1 hpend1 he
  have hafter := bridgeRun_after (bridgeStep (bridgeRun b pre).1 e).1 id post hhit.1
  have hsplit := bridgeRun_append b pre (e :: post)
  refine ⟨?_, ?_, ?_⟩
  · rw [hsplit]
    simp only [bridgeRun]
    rw [resolutionsFor_append, hmiss.2, resolutionsFor_append, hhit.2, hafter.2]
    simp
  · rw [hsplit]
    simp only [bridgeRun]
    exact hafter.1
  · intro b2 r h2
    simp [UIBridge.handleResponse, h2]

/-- C2 witness: with dialogs d1 (confirm) and d2 (select) pending, an
unrelated timeout fires, then the client answers d1; d1's own timeout and a
cancelAll come later and are no-ops for d1. -/
theorem dialog_id_resolves_exactly_once_witness :
    resolutionsFor (some (.str "d1"))
      (bridgeRun twoDialogBridge
        ([.timerFire (some (.str "d2"))] ++
          d1Answer :: [.timerFire (some (.str "d1")), .cancelAll])).2
      = [(some (.str "d1"),
          firstHitResponse (some (.str "d1")) (some (.str "confirm")) d1Answer)] :=
  (dialog_id_resolves_exactly_once twoDialogBridge
    (some (.str "d1")) (some (.str "confirm"))
    [.timerFire (some (.str "d2"))]
    [.timerFire (some (.str "d1")), .cancelAll]
    d1Answer
    (by decide) (by decide) (by decide) (by decide)).1

/-- C1 amended: while one client stays connected, the sequence numbers of
the numbered messages delivered to it (events and forwarded extension UI
requests) are exactly the consecutive integers from one past the counter's
starting value up to its final value — strictly increasing, gapless, in
backend emission order, and the counter never decreases or resets. -/
theorem seq_delivery_consecutive_while_connected
    (g : GatewayState) (c : Nat) (evs : List GatewayEv)
    (h : stayConnected c g evs = true) :
    g.seq ≤ (run g evs).1.seq
    ∧ seqsTo c (run g evs).2
        = List.range' (g.seq + 1) ((run g evs).1.seq - g.seq) := by
  induction evs generalizing g with
  | nil => simp [run, seqsTo, List.range']
  | cons e t ih =>
    simp only [stayConnected, Bool.and_eq_true] at h
    have hstep := step_seq_delivery g c e h.1
    have hrest := ih (step g e).1 h.2
    rcases hstep with ⟨he, hs⟩ | ⟨he, hs⟩
    · constructor
      · have h1 := hrest.1
        simp only [run]
        omega
      · simp only [run]
        rw [seqsTo_append, hs, hrest.2, he]
        simp
    · constructor
      · have h1 := hrest.1
        simp only [run]
        omega
      · simp only [run]
        rw [seqsTo_append, hs, hrest.2, he]
        have h1 := hrest.1
        rw [he] at h1
        have hn : (run (step g e).1 t).1.seq - g.seq
            = ((run (step g e).1 t).1.seq - (g.seq + 1)) + 1 := by omega
        rw [hn, List.range']
        rfl

/-- C1 amended witness: two backend events after the handshake are delivered
to the connected client with consecutive numbers 1 and 2. -/
theorem seq_delivery_consecutive_while_connected_witness :
    (run (initGateway none) helloOkEvs).1.seq
        ≤ (run (run (initGateway none) helloOkEvs).1 twoEventEvs).1.seq
    ∧ seqsTo 0 (run (run (initGateway none) helloOkEvs).1 twoEventEvs).2
        = List.range' ((run (initGateway none) helloOkEvs).1.seq + 1)
            ((run (run (initGateway none) helloOkEvs).1 twoEventEvs).1.seq
              - (run (initGateway none) helloOkEvs).1.seq) :=
  seq_delivery_consecutive_while_connected (run (initGateway none) helloOkEvs).1 0
    twoEventEvs (by decide)

/-- C1 counterexample: the sequence counter also advances for events emitted
while no client is connected, so the same client (clientId "c1") that
reconnects observes delivered numbers 1 then 3 — a gap — over the lifetime
of one gateway instance. -/
theorem seq_gap_across_reconnect :
    deliveredSeqs (run (initGateway none) reconnectEvs).2 = [1, 3]
    ∧ noGaps (deliveredSeqs (run (initGateway none) reconnectEvs).2) = false
    ∧ (run (initGateway none) reconnectEvs).1.clientId = some "c1" := by decide

/-- C5: a hello whose protocolVersion differs from the server's
PROTOCOL_VERSION draws exactly an INCOMPATIBLE_PROTOCOL error (whose
serverVersion field carries the server's version) followed by a socket
close, and that connection never receives a welcome — not in the rejecting
step and not in any later event sequence (a real socket's id is never
reused by a fresh connection). -/
theorem version_mismatch_rejected_never_welcomed
    (g : GatewayState) (s : Nat) (c : Conn) (v : Int) (cid : String)
    (hc : alookup g.conns s = some c) (hopen : c.closed = false)
    (hhs : c.handshakeComplete = false) (hv : v ≠ PROTOCOL_VERSION) :
    step g (.frame s (.valid (.hello v cid))) =
      ({ g with conns := aset g.conns s { c with closed := true } },
       [.toSock s (.error (createIncompatibleProtocolError v PROTOCOL_VERSION)),
        .closeSock s 1002 "Incompatible protocol version"])
    ∧ (createIncompatibleProtocolError v PROTOCOL_VERSION).serverVersion
        = some PROTOCOL_VERSION
    ∧ ∀ evs, (∀ e ∈ evs, e ≠ GatewayEv.connect s) → ∀ w,
        Out.toSock s (.welcome w)
          ∉ (run (step g (.frame s (.valid (.hello v cid)))).1 evs).2 := by
  have hcl : ¬ c.closed = true := by simp [hopen]
  have hhs2 : ¬ c.handshakeComplete = true := by simp [hhs]
  have hstep : step g (.frame s (.valid (.hello v cid))) =
      ({ g with conns := aset g.conns s { c with closed := true } },
       [.toSock s (.error (createIncompatibleProtocolError v PROTOCOL_VERSION)),
        .closeSock s 1002 "Incompatible protocol version"]) := by
    simp [step, stepFrame, hc, if_neg hcl, if_neg hhs2, if_neg hv]
  refine ⟨hstep, rfl, ?_⟩
  intro evs hne w
  refine run_no_welcome_to_closed _ s evs ?_ hne w
  rw [hstep]
  simp [isOpenConn, alookup_aset_self]

/-- C5 witness: socket 0 sends a hello with protocolVersion 2 against the
version-1 server. -/
theorem version_mismatch_rejected_never_welcomed_witness :
    step (run (initGateway none) [.connect 0]).1 (.frame 0 (.valid (.hello 2 "x"))) =
      ({ (run (initGateway none) [.connect 0]).1 with
          conns := aset (run (initGateway none) [.connect 0]).1.conns 0
                     { handshakeComplete := false, closed := true } },
       [.toSock 0 (.error (createIncompatibleProtocolError 2 PROTOCOL_VERSION)),
        .closeSock 0 1002 "Incompatible protocol version"]) :=
  (version_mismatch_rejected_never_welcomed (run (initGateway none) [.connect 0]).1
    0 { handshakeComplete := false, closed := false } 2 "x"
    (by decide) rfl rfl (by decide)).1

/-- C4: if the client disconnects while dialogs of methods select, confirm
and input are outstanding, `cancelAll` resolves all three with their
method-specific defaults, each default is sent back to pi, and the
pending-dialog map is left empty. -/
theorem disconnect_resolves_dialogs_with_defaults
    (g : GatewayState) (s : Nat) (c : Conn) (i1 i2 i3 : JsVal)
    (hc : alookup g.conns s = some c)
    (hcl : g.client = some s)
    (hp : g.bridge.pending =
      [(i1, some (.str "select")), (i2, some (.str "confirm")),
       (i3, some (.str "input"))]) :
    (step g (.sockClosed s)).2 =
      [.toPi (.uiResponse { id := i1, cancelled := some true }),
       .toPi (.uiResponse { id := i2, confirmed := some false }),
       .toPi (.uiResponse { id := i3, cancelled := some true })]
    ∧ (step g (.sockClosed s)).1.bridge.pending = []
    ∧ (step g (.sockClosed s)).1.client = none := by
  refine ⟨?_, ?_, ?_⟩ <;>
    simp [step, stepSockClosed, hc, hcl, UIBridge.cancelAll, hp, getDefaultResponse]

/-- C4 witness: the scenario reached by an actual run — handshake, three
dialogs, then disconnect. -/
theorem disconnect_resolves_dialogs_with_defaults_witness :
    (step threeDialogState (.sockClosed 0)).2 =
      [.toPi (.uiResponse { id := some (.str "d1"), cancelled := some true }),
       .toPi (.uiResponse { id := some (.str "d2"), confirmed := some false }),
       .toPi (.uiResponse { id := some (.str "d3"), cancelled := some true })]
    ∧ (step threeDialogState (.sockClosed 0)).1.bridge.pending = []
    ∧ (step threeDialogState (.sockClosed 0)).1.client = none :=
  disconnect_resolves_dialogs_with_defaults threeDialogState 0
    { handshakeComplete := true, closed := false }
    (some (.str "d1")) (some (.str "d2")) (some (.str "d3"))
    (by decide) (by decide) (by decide)

/-- C8: for a backend whose `get_state` response carries `data.model = "m"`
and whose `get_messages` response carries an empty list, the welcome sent
after the handshake holds exactly that state and history, and its
`currentSeq` is 0 because no events have been emitted. -/
theorem welcome_carries_state_history_verbatim :
    welcomesTo 0 (run (initGateway none) helloOkEvs).2 =
      [{ protocolVersion := PROTOCOL_VERSION, serverId := getServerId,
         sessionState := .obj (.cons "model" (.str "m") .nil),
         messages := .arr .nil, currentSeq := 0 }] := by decide

/-- C7: a connection attempt while a client handle is held is rejected with
an explicit error and a close, and the gateway state — sequence counter,
pending-request map, pending-dialog map, everything — is returned unchanged;
the rejected socket gets no message handler, so its later frames are
ignored. -/
theorem second_connection_rejected_state_unchanged
    (g : GatewayState) (c s : Nat) (hcl : g.client = some c) :
    step g (.connect s) =
      (g, [.toSock s (.error (createError "INTERNAL_ERROR"
             "Another client is already connected" none)),
           .closeSock s 1008 "Another client is already connected"])
    ∧ (alookup g.conns s = none → ∀ f, step g (.frame s f) = (g, [])) := by
  constructor
  · simp [step, stepConnect, hcl]
  · intro hn f
    simp [step, stepFrame, hn]

/-- C7 witness: rejecting socket 5 while socket 0 is the connected client. -/
theorem second_connection_rejected_state_unchanged_witness :
    step (run (initGateway none) helloOkEvs).1 (.connect 5) =
      ((run (initGateway none) helloOkEvs).1,
       [.toSock 5 (.error (createError "INTERNAL_ERROR"
          "Another client is already connected" none)),
        .closeSock 5 1008 "Another client is already connected"])
    ∧ (alookup (run (initGateway none) helloOkEvs).1.conns 5 = none →
        ∀ f, step (run (initGateway none) helloOkEvs).1 (.frame 5 f) =
          ((run (initGateway none) helloOkEvs).1, [])) :=
  second_connection_rejected_state_unchanged
    (run (initGateway none) helloOkEvs).1 0 5 (by decide)

/-- C6 (counterexample to the single-active-client claim): the slot guard
runs only at connection time, so when two sockets connect before either
sends its hello, both complete the handshake and both sockets' post-handshake
commands are processed and forwarded to pi; the client handle silently moves
to the second socket while the first stays open and handshaken. -/
theorem handshake_race_gives_two_processed_clients :
    Out.toPi (.payload (.str "cmdA")) ∈ (run (initGateway none) raceEvs).2
    ∧ Out.toPi (.payload (.str "cmdB")) ∈ (run (initGateway none) raceEvs).2
    ∧ (run (initGateway none) raceEvs).1.client = some 1
    ∧ alookup (run (initGateway none) raceEvs).1.conns 0 =
        some { handshakeComplete := true, closed := false } := by decide

/-- C3 (counterexample): a backend response whose pending entry already
timed out and was removed is not discarded — it falls through the
classification and is delivered to the connected client as a
sequence-numbered event. -/
theorem late_response_delivered_to_client :
    Out.toSock 1 (.event 1 lateResp) ∈
      (run lateRespState [.piLine (.valid lateResp)]).2 := by decide

/-- C3 amended: a response carrying an id with no pending entry resolves
nothing internally; it falls through to the event branch, consumes the next
sequence number, and is sent to the connected client if one exists (dropped
only when none is). -/
theorem late_response_falls_through_to_event
    (g : GatewayState) (m : Json) (i : String)
    (hid : respId m = some i)
    (hmiss : alookup g.pendingPi i = none) :
    step g (.piLine (.valid m)) =
      ({ g with seq := g.seq + 1 },
       sendToClient { g with seq := g.seq + 1 } (.event (g.seq + 1) m)) := by
  have htype : getField m "type" = some (.str "response") := by
    by_cases h : getField m "type" = some (.str "response")
    · exact h
    · simp [respId, h] at hid
  have hext : isExtensionUIRequest m = false := by
    simp [isExtensionUIRequest, htype]
  simp [step, handlePiMessage, hid, hmiss, classifyRest, hext]

/-- C3 amended witness: the late `srv_1` response at the state reached by
`lateRespEvs` (entry removed by timeout, fresh client connected). -/
theorem late_response_falls_through_to_event_witness :
    step lateRespState (.piLine (.valid lateResp)) =
      ({ lateRespState with seq := lateRespState.seq + 1 },
       sendToClient { lateRespState with seq := lateRespState.seq + 1 }
         (.event (lateRespState.seq + 1) lateResp)) :=
  late_response_falls_through_to_event lateRespState lateResp "srv_1"
    (by decide) (by decide)

/-- C9 (counterexample to "dropped silently"): a non-JSON client frame is
answered with an INTERNAL_ERROR message — the drop is not silent. -/
theorem malformed_client_frame_answered :
    (step (run (initGateway none) [.connect 0]).1 (.frame 0 .invalid)).2 =
      [.toSock 0 (.error (createError "INTERNAL_ERROR" "Invalid JSON" none))]
    ∧ (step (run (initGateway none) [.connect 0]).1 (.frame 0 .invalid)).2 ≠ [] := by
  decide

/-- C9 amended: malformed input is non-fatal on both sides and leaves the
session state unchanged; a non-JSON backend line is dropped silently, while
a non-JSON client frame draws an INTERNAL_ERROR reply without closing the
connection. -/
theorem malformed_input_nonfatal
    (g : GatewayState) (s : Nat) (c : Conn)
    (hc : alookup g.conns s = some c) (hopen : c.closed = false) :
    step g (.piLine .invalid) = (g, [])
    ∧ step g (.frame s .invalid) =
        (g, [.toSock s (.error (createError "INTERNAL_ERROR" "Invalid JSON" none))]) := by
  constructor
  · rfl
  · simp [step, stepFrame, hc, hopen]

/-- C9 amended witness. -/
theorem malformed_input_nonfatal_witness :
    step (run (initGateway none) [.connect 0]).1 (.piLine .invalid) =
      ((run (initGateway none) [.connect 0]).1, [])
    ∧ step (run (initGateway none) [.connect 0]).1 (.frame 0 .invalid) =
        ((run (initGateway none) [.connect 0]).1,
         [.toSock 0 (.error (createError "INTERNAL_ERROR" "Invalid JSON" none))]) :=
  malformed_input_nonfatal (run (initGateway none) [.connect 0]).1 0
    { handshakeComplete := false, closed := false } (by decide) (by decide)

/-- C10: a blocking dialog arriving while no client is connected is still
registered with the UIBridge and forwarded nowhere; when its timeout then
fires, the method-specific default response is sent to pi — and the default
dialog timeout (no `extensionUITimeoutMs` option) is 60000 ms. -/
theorem dialog_without_client_registered_then_default
    (g : GatewayState) (m : Json)
    (hcl : g.client = none)
    (hreq : isExtensionUIRequest m = true)
    (hdlg : isFireAndForget m = false) :
    step g (.piLine (.valid m)) =
      ({ g with bridge :=
          g.bridge.registerRequest (getField m "id") (getField m "method") }, [])
    ∧ (step (step g (.piLine (.valid m))).1 (.uiTimer (getField m "id"))).2 =
        [.toPi (.uiResponse
          (getDefaultResponse (getField m "id") (getField m "method")))]
    ∧ (initGateway none).bridge.timeoutMs = 60000 := by
  have htype : getField m "type" = some (.str "extension_ui_request") := by
    simpa [isExtensionUIRequest] using hreq
  have hid : respId m = none := by
    simp [respId, htype]
  have h1 : step g (.piLine (.valid m)) =
      ({ g with bridge :=
          g.bridge.registerRequest (getField m "id") (getField m "method") }, []) := by
    simp [step, handlePiMessage, hid, classifyRest, hreq, hdlg, hcl]
  refine ⟨h1, ?_, rfl⟩
  rw [h1]
  simp [step, stepUITimer, UIBridge.fireTimeout, UIBridge.registerRequest,
    alookup_aset_self]

/-- C10 witness: a select dialog at the fresh gateway with no client. -/
theorem dialog_without_client_registered_then_default_witness :
    step (initGateway none) (.piLine (.valid (dlgRequest "d1" "select"))) =
      ({ initGateway none with
          bridge := (initGateway none).bridge.registerRequest
                      (getField (dlgRequest "d1" "select") "id")
                      (getField (dlgRequest "d1" "select") "method") }, [])
    ∧ (step (step (initGateway none) (.piLine (.valid (dlgRequest "d1" "select")))).1
        (.uiTimer (getField (dlgRequest "d1" "select") "id"))).2 =
        [.toPi (.uiResponse (getDefaultResponse
          (getField (dlgRequest "d1" "select") "id")
          (getField (dlgRequest "d1" "select") "method")))]
    ∧ (initGateway none).bridge.timeoutMs = 60000 :=
  dialog_without_client_registered_then_default (initGateway none)
    (dlgRequest "d1" "select") (by decide) (by decide) (by decide)

end PiServer
